import Mathlib

/-!
Shallow embedding of the string-resource generator (src/app.py).

The identifier table (`android_df`) is a list of rows with columns
`string_name` and `english_value`; the translation table (`translation_df`)
has an `english_value` column followed by one column per language, where a
missing (NaN) cell is modelled as `none`.  `generate_string_files` iterates
the languages, resolves each identifier row in the inclusive index range
against the first translation row whose `english_value` matches, falls back
to the English value on a missing or blank translation while recording a
warning, and joins the per-platform lines with a newline.  `xml_to_sheet`
and `strings_to_sheet` model the inverse conversions.
-/

/-- One row of the Android string resource sheet (columns `string_name`,
`english_value`). -/
structure IdentifierRow where
  string_name : String
  english_value : String
deriving DecidableEq, Inhabited

/-- One row of the translation sheet: the `english_value` join key plus the
per-language cells.  A `none` cell models a NaN (empty spreadsheet cell). -/
structure TranslationRow where
  english_value : String
  cells : List (String × Option String)
deriving DecidableEq, Inhabited

/-- The translation sheet: `languages` is `translation_df.columns[1:]` and
`rows` are the data rows in table order. -/
structure TranslationTable where
  languages : List String
  rows : List TranslationRow
deriving DecidableEq, Inhabited

/-- The two warning kinds appended by `generate_string_files`; each carries
the English source text and the language, as the formatted messages do. -/
inductive Warning where
  | emptyTranslation (english_value lang : String)
  | noTranslationFound (english_value lang : String)
deriving DecidableEq

/-- The outcome of reconciling one identifier row against one language. -/
structure ResolvedRecord where
  name : String
  source_text : String
  value : String
  used_fallback : Bool
deriving DecidableEq, Inhabited

/-- The characters Python `str.isspace()` accepts and `str.strip()` with no
argument removes: ASCII whitespace including vertical tab, form feed and
the information separators, plus the Unicode whitespace code points
(next line, no-break space, ogham space mark, the en-quad..hair-space
range, line and paragraph separators, narrow no-break space, medium
mathematical space, ideographic space). -/
def pyWhitespace : List Char :=
  [' ', '\t', '\n', '\r', '\u000b', '\u000c',
   '\u001c', '\u001d', '\u001e', '\u001f',
   '\u0085', '\u00a0', '\u1680',
   '\u2000', '\u2001', '\u2002', '\u2003', '\u2004', '\u2005',
   '\u2006', '\u2007', '\u2008', '\u2009', '\u200a',
   '\u2028', '\u2029', '\u202f', '\u205f', '\u3000']

/-- Whitespace as stripped by the Python `str.strip()` calls in the code. -/
def wsChar (c : Char) : Bool :=
  pyWhitespace.contains c

/-- Drop characters satisfying `pred` from both ends of a character list. -/
def stripEnds (pred : Char → Bool) (s : List Char) : List Char :=
  ((s.dropWhile pred).reverse.dropWhile pred).reverse

/-- Python `str.strip()` with no argument: remove surrounding whitespace. -/
def pyStrip (s : String) : String :=
  String.mk (stripEnds wsChar s.data)

/-- Python `str.strip(chars)`: remove all leading and trailing characters
that belong to `cs`. -/
def pyStripSet (cs : List Char) (s : String) : String :=
  String.mk (stripEnds (fun c => cs.contains c) s.data)

/-- `chop? p s` removes `p` from the front of `s`, or fails when `p` is not
a leading segment of `s`. -/
def chop? : List Char → List Char → Option (List Char)
  | [], s => some s
  | _ :: _, [] => none
  | p :: ps, c :: cs => if p == c then chop? ps cs else none

/-- Python `str.startswith`, on character lists. -/
def begins (p s : List Char) : Bool :=
  (chop? p s).isSome

/-- Split at the first occurrence of `pat`: `findSub pat s = some (a, b)`
when `s = a ++ pat ++ b` and `pat` occurs nowhere earlier. -/
def findSub (pat : List Char) : List Char → Option (List Char × List Char)
  | [] => (chop? pat []).map (fun r => ([], r))
  | c :: cs =>
    match chop? pat (c :: cs) with
    | some r => some ([], r)
    | none =>
      match findSub pat cs with
      | some (a, b) => some (c :: a, b)
      | none => none

/-- Fuelled worker for `pySplit`. -/
def splitOnAux (sep : List Char) : Nat → List Char → List (List Char)
  | 0, s => [s]
  | n + 1, s =>
    match findSub sep s with
    | none => [s]
    | some (a, b) => a :: splitOnAux sep n b

/-- Python `str.split(sep)`: split on each non-overlapping occurrence of
`sep`, left to right. -/
def pySplit (sep : String) (s : String) : List String :=
  (splitOnAux sep.data (s.data.length + 1) s.data).map String.mk

/-- Python `range(start, stop)` as a list of indices. -/
def pyRange (start stop : Nat) : List Nat :=
  (List.range (stop - start)).map (fun k => start + k)

/-- The cell of this row in column `lang`; `none` models a NaN cell. -/
def TranslationRow.cell (t : TranslationRow) (lang : String) : Option String :=
  match t.cells.find? (fun p => p.1 == lang) with
  | some p => p.2
  | none => none

/-- Resolution of one language cell of a located translation row: the cell
content is used verbatim when it is present and non-blank after stripping,
otherwise the code falls back to the English value and records an
empty-translation warning. -/
def cellResolve (lang key : String) (t : TranslationRow) :
    String × Bool × Option Warning :=
  match t.cell lang with
  | some v =>
    if pyStrip v = ("") then
      (key, true, some (Warning.emptyTranslation key lang))
    else
      (v, false, none)
  | none => (key, true, some (Warning.emptyTranslation key lang))

/-- The lookup in `generate_string_files`:
`translation_df.loc[translation_df[english_value] == english_value, lang].values[0]`
takes the first row whose `english_value` equals the key; when no row
matches, the `IndexError` branch falls back to the English value with a
no-translation-found warning. -/
def resolveValue (tdf : TranslationTable) (lang key : String) :
    String × Bool × Option Warning :=
  match tdf.rows.find? (fun t => t.english_value == key) with
  | some t => cellResolve lang key t
  | none => (key, true, some (Warning.noTranslationFound key lang))

/-- Resolve one identifier row for one language. -/
def resolveRow (tdf : TranslationTable) (lang : String) (r : IdentifierRow) :
    ResolvedRecord × Option Warning :=
  match resolveValue tdf lang r.english_value with
  | (v, fb, w) => (⟨r.string_name, r.english_value, v, fb⟩, w)

/-- The per-language body of the loop `for i in range(start_row, end_row + 1)`
in `generate_string_files`: the resolved records in row order together with
the warnings collected for this language. -/
def reconcile (adf : List IdentifierRow) (tdf : TranslationTable)
    (start_row end_row : Nat) (lang : String) :
    List ResolvedRecord × List Warning :=
  let pairs := (pyRange start_row (end_row + 1)).map
    (fun i => resolveRow tdf lang (adf.getD i default))
  (pairs.map (fun p => p.1), pairs.filterMap (fun p => p.2))

/-- The Android output line for one record. -/
def androidLine (r : ResolvedRecord) : String :=
  ("    <string name=\"") ++ (r.name ++ (("\">") ++ (r.value ++ ("</string>"))))

/-- The iOS output line for one record. -/
def iosLine (r : ResolvedRecord) : String :=
  ("\"") ++ (r.source_text ++ (("\" = \"") ++ (r.value ++ ("\";"))))

/-- The `if platform == "android" ... elif platform == "ios"` dispatch inside
the row loop. -/
def rowLines (platform : String) (r : ResolvedRecord) : List String :=
  if platform == "android" then [androidLine r]
  else if platform == "ios" then [iosLine r]
  else []

/-- Concatenation of a list of lists, used to flatten the per-row lines and
the per-language warning lists. -/
def concatAll : List (List α) → List α
  | [] => []
  | l :: ls => l ++ concatAll ls

/-- Python `"\n".join(lines)`. -/
def joinLines : List String → String
  | [] => ("")
  | [l] => l
  | l :: l' :: ls => l ++ (("\n") ++ joinLines (l' :: ls))

/-- The text generated for one language: the optional `<resources>` wrapper
around the per-row lines, joined by newlines. -/
def fileFor (adf : List IdentifierRow) (tdf : TranslationTable)
    (start_row end_row : Nat) (platform lang : String) : String :=
  let records := (reconcile adf tdf start_row end_row lang).1
  let output_lines :=
    (if platform == "android" then [("<resources>")] else [])
      ++ concatAll (records.map (rowLines platform))
      ++ (if platform == "android" then [("</resources>")] else [])
  joinLines output_lines

/-- `generate_string_files`: the mapping from language to generated text, in
column order, plus the warnings collected across all languages.  Warnings
are collected in a list and reported at the end, never raised. -/
def generate_string_files (adf : List IdentifierRow) (tdf : TranslationTable)
    (start_row end_row : Nat) (platform : String) :
    List (String × String) × List Warning :=
  (tdf.languages.map (fun lang => (lang, fileFor adf tdf start_row end_row platform lang)),
   concatAll (tdf.languages.map (fun lang => (reconcile adf tdf start_row end_row lang).2)))

/-- `generate_android_xml`. -/
def generate_android_xml (adf : List IdentifierRow) (tdf : TranslationTable)
    (start_row end_row : Nat) : List (String × String) × List Warning :=
  generate_string_files adf tdf start_row end_row ("android")

/-- `generate_ios_strings`. -/
def generate_ios_strings (adf : List IdentifierRow) (tdf : TranslationTable)
    (start_row end_row : Nat) : List (String × String) × List Warning :=
  generate_string_files adf tdf start_row end_row ("ios")

/-- The row-range constraints enforced by the two `st.number_input` widgets
in `main`: `start_row` ranges over `[0, len - 1]` and `end_row` over
`[start_row, len - 1]`. -/
def validRange (row_count start_row end_row : Nat) : Prop :=
  start_row ≤ row_count - 1 ∧ start_row ≤ end_row ∧ end_row ≤ row_count - 1

/-- The opening of a string element as generated by the serializer. -/
def patL : List Char := ("<string name=\"").data

/-- The end of the name attribute and of the opening tag. -/
def qL : List Char := ("\">").data

/-- The closing tag of a string element. -/
def eL : List Char := ("</string>").data

/-- Fuelled scan over the document text.  `xml_to_sheet` parses the file
with `xml.etree.ElementTree` and emits, for each `string` child of the
root, the `name` attribute and the element text; for an element with no
text content `element.text` is `None`, modelled here by `none`.  This
models that library behaviour on documents whose string elements follow
the serialized shape `<string name="NAME">VALUE</string>`. -/
def parseStringsAux : Nat → List Char → List (String × Option String)
  | 0, _ => []
  | fuel + 1, s =>
    match findSub patL s with
    | none => []
    | some (_, rest1) =>
      match findSub qL rest1 with
      | none => []
      | some (nm, rest2) =>
        match findSub eL rest2 with
        | none => []
        | some (ct, rest3) =>
          (String.mk nm, if ct.isEmpty then none else some (String.mk ct))
            :: parseStringsAux fuel rest3

/-- `xml_to_sheet`: the list of `(string_name, value)` rows recovered from an
Android XML document, in document order. -/
def xml_to_sheet (doc : String) : List (String × Option String) :=
  parseStringsAux (doc.data.length + 1) doc.data

/-- The line loop of `strings_to_sheet`: strip each line, skip blank lines
and `//` comments, split the rest on the literal `" = "` (a `ValueError`
halts the whole parse unless the split yields exactly two parts), then strip
quote characters from the key and quote or semicolon characters from the
value. -/
def strings_to_sheet_go : List String → Except String (List (String × String))
  | [] => Except.ok []
  | raw :: rest =>
    if pyStrip raw = ("") then strings_to_sheet_go rest
    else if begins ("//").data (pyStrip raw).data then strings_to_sheet_go rest
    else
      match pySplit (" = ") (pyStrip raw) with
      | [string_name, value] =>
        match strings_to_sheet_go rest with
        | Except.ok tail =>
          Except.ok ((pyStripSet ['"'] string_name, pyStripSet ['"', ';'] value) :: tail)
        | Except.error e => Except.error e
      | _ => Except.error ("ValueError")

/-- `strings_to_sheet`: parse an iOS `.strings` file, reading it line by
line in file order. -/
def strings_to_sheet (input : String) : Except String (List (String × String)) :=
  strings_to_sheet_go (pySplit ("\n") input)

/-- Modelled from the spec: remove a single layer of wrapping double-quotes,
as §4.4 words the key handling of the iOS deserializer. -/
def stripOneLayer (s : String) : String :=
  if 2 ≤ s.data.length ∧ s.data.head? = some '"' ∧ s.data.getLast? = some '"' then
    String.mk (s.data.drop 1).dropLast
  else s

/-- Modelled from the spec: strip wrapping double-quotes and the trailing
semicolon from the value part. -/
def stripValueSpec (s : String) : String :=
  stripOneLayer (if s.data.getLast? = some ';' then String.mk s.data.dropLast else s)

/-- Modelled from the spec: the iOS deserializer as §4.4 words it, with a
single layer of quotes stripped from the key and quotes plus the trailing
semicolon stripped from the value; used to compare the specified strip
behaviour with the implemented one. -/
def strings_to_sheet_spec_go : List String → Except String (List (String × String))
  | [] => Except.ok []
  | raw :: rest =>
    if pyStrip raw = ("") then strings_to_sheet_spec_go rest
    else if begins ("//").data (pyStrip raw).data then strings_to_sheet_spec_go rest
    else
      match pySplit (" = ") (pyStrip raw) with
      | [string_name, value] =>
        match strings_to_sheet_spec_go rest with
        | Except.ok tail =>
          Except.ok ((stripOneLayer string_name, stripValueSpec value) :: tail)
        | Except.error e => Except.error e
      | _ => Except.error ("ValueError")

/-- Modelled from the spec: whole-file variant of `strings_to_sheet_spec_go`. -/
def strings_to_sheet_spec (input : String) : Except String (List (String × String)) :=
  strings_to_sheet_spec_go (pySplit ("\n") input)

/-- Strings free of the XML-reserved characters named by the round-trip law. -/
def noReserved (s : String) : Prop :=
  ∀ c ∈ s.data, c ≠ '<' ∧ c ≠ '&' ∧ c ≠ '"'

instance noReservedDecidable (s : String) : Decidable (noReserved s) := by
  unfold noReserved
  infer_instance

theorem find?_first {α : Type} {p : α → Bool} {t : α} {post : List α} :
    ∀ {pre : List α}, (∀ u ∈ pre, p u = false) → p t = true →
      List.find? p (pre ++ t :: post) = some t := by
  intro pre
  induction pre with
  | nil => intro _ ht; simp [List.find?, ht]
  | cons a as ih =>
    intro hpre ht
    have ha : p a = false := hpre a (by simp)
    simpa [List.find?, ha] using ih (fun u hu => hpre u (by simp [hu])) ht

theorem reconcile_fst (adf : List IdentifierRow) (tdf : TranslationTable)
    (s e : Nat) (lang : String) :
    (reconcile adf tdf s e lang).1 =
      (pyRange s (e + 1)).map (fun i => (resolveRow tdf lang (adf.getD i default)).1) := by
  unfold reconcile
  simp [List.map_map]

theorem pyRange_getElem? {s n i : Nat} (h : i < n - s) :
    (pyRange s n)[i]? = some (s + i) := by
  unfold pyRange
  rw [List.getElem?_map]
  rw [List.getElem?_range h]
  rfl

theorem reconcile_getElem? (adf : List IdentifierRow) (tdf : TranslationTable)
    (s e i : Nat) (lang : String) (h1 : s ≤ i) (h2 : i ≤ e) :
    (reconcile adf tdf s e lang).1[i - s]? =
      some (resolveRow tdf lang (adf.getD i default)).1 := by
  rw [reconcile_fst, List.getElem?_map, pyRange_getElem? (by omega)]
  have hi : s + (i - s) = i := by omega
  rw [hi]
  rfl

theorem reconcile_length (adf : List IdentifierRow) (tdf : TranslationTable)
    (s e : Nat) (lang : String) :
    (reconcile adf tdf s e lang).1.length = e + 1 - s := by
  rw [reconcile_fst]
  simp [pyRange]

theorem mem_reconcile_warning (adf : List IdentifierRow) (tdf : TranslationTable)
    (s e i : Nat) (lang : String) (w : Warning) (h1 : s ≤ i) (h2 : i ≤ e)
    (hw : (resolveRow tdf lang (adf.getD i default)).2 = some w) :
    w ∈ (reconcile adf tdf s e lang).2 := by
  unfold reconcile
  refine List.mem_filterMap.mpr ⟨resolveRow tdf lang (adf.getD i default), ?_, hw⟩
  refine List.mem_map.mpr ⟨i, ?_, rfl⟩
  unfold pyRange
  refine List.mem_map.mpr ⟨i - s, ?_, by omega⟩
  exact List.mem_range.mpr (by omega)

theorem mem_concatAll {α : Type} {a : α} {l : List α} :
    ∀ {L : List (List α)}, l ∈ L → a ∈ l → a ∈ concatAll L := by
  intro L
  induction L with
  | nil => intro h; cases h
  | cons x xs ih =>
    intro hl ha
    rcases List.mem_cons.mp hl with h | h
    · subst h
      exact List.mem_append.mpr (Or.inl ha)
    · exact List.mem_append.mpr (Or.inr (ih h ha))

theorem resolveValue_first (tdf : TranslationTable) (lang key : String)
    (pre post : List TranslationRow) (t : TranslationRow)
    (hsplit : tdf.rows = pre ++ t :: post)
    (hpre : ∀ u ∈ pre, u.english_value ≠ key)
    (ht : t.english_value = key) :
    resolveValue tdf lang key = cellResolve lang key t := by
  unfold resolveValue
  rw [hsplit, find?_first (fun u hu => by simpa using hpre u hu) (by simpa using ht)]

theorem resolveValue_none (tdf : TranslationTable) (lang key : String)
    (hno : ∀ u ∈ tdf.rows, u.english_value ≠ key) :
    resolveValue tdf lang key = (key, true, some (Warning.noTranslationFound key lang)) := by
  unfold resolveValue
  rw [List.find?_eq_none.mpr (fun u hu => by simpa using hno u hu)]

theorem resolveRow_eq (tdf : TranslationTable) (lang : String) (r : IdentifierRow) :
    resolveRow tdf lang r =
      (⟨r.string_name, r.english_value, (resolveValue tdf lang r.english_value).1,
        (resolveValue tdf lang r.english_value).2.1⟩,
       (resolveValue tdf lang r.english_value).2.2) := by
  unfold resolveRow
  rcases resolveValue tdf lang r.english_value with ⟨v, fb, w⟩
  rfl

/-- C1 (counterexample): with two translation rows sharing source text
`Hello`, the first with a blank `fr` cell and the second with the non-blank
cell `Bonjour`, a row with a non-blank matching cell exists, yet the
reconciler emits the English fallback `Hello` with `used_fallback = true`,
not `Bonjour` with `used_fallback = false` as the claim states. -/
theorem spec_C1_cex :
    (⟨("Hello"), [(("fr"), some ("Bonjour"))]⟩ : TranslationRow) ∈
        (⟨[("fr")], [⟨("Hello"), [(("fr"), some (""))]⟩,
          ⟨("Hello"), [(("fr"), some ("Bonjour"))]⟩]⟩ : TranslationTable).rows
    ∧ pyStrip ("Bonjour") ≠ ("")
    ∧ (reconcile [⟨("k"), ("Hello")⟩]
        ⟨[("fr")], [⟨("Hello"), [(("fr"), some (""))]⟩,
          ⟨("Hello"), [(("fr"), some ("Bonjour"))]⟩]⟩ 0 0 ("fr")).1 =
        [⟨("k"), ("Hello"), ("Hello"), true⟩]
    ∧ (⟨("k"), ("Hello"), ("Bonjour"), false⟩ : ResolvedRecord) ∉
        (reconcile [⟨("k"), ("Hello")⟩]
          ⟨[("fr")], [⟨("Hello"), [(("fr"), some (""))]⟩,
            ⟨("Hello"), [(("fr"), some ("Bonjour"))]⟩]⟩ 0 0 ("fr")).1 := by
  refine ⟨by simp, by decide, by decide, by decide⟩

/-- C1 (amended): for every identifier row in the requested range and every
language L, if the first translation row in table order whose source text
equals the identifier row's source text has a non-blank L cell, the
reconciler emits the cell content verbatim with `used_fallback = false`. -/
theorem spec_C1_thm (adf : List IdentifierRow) (tdf : TranslationTable)
    (s e i : Nat) (lang v : String)
    (pre post : List TranslationRow) (t : TranslationRow)
    (h1 : s ≤ i) (h2 : i ≤ e)
    (hsplit : tdf.rows = pre ++ t :: post)
    (hpre : ∀ u ∈ pre, u.english_value ≠ (adf.getD i default).english_value)
    (ht : t.english_value = (adf.getD i default).english_value)
    (hcell : t.cell lang = some v)
    (hnb : pyStrip v ≠ ("")) :
    (reconcile adf tdf s e lang).1[i - s]? =
      some ⟨(adf.getD i default).string_name, (adf.getD i default).english_value, v, false⟩ := by
  rw [reconcile_getElem? adf tdf s e i lang h1 h2, resolveRow_eq,
    resolveValue_first tdf lang _ pre post t hsplit hpre ht]
  unfold cellResolve
  rw [hcell]
  simp only [if_neg (by simpa using hnb)]

/-- C1 (witness): the amended claim at a concrete input where the matching
row is preceded by a non-matching one. -/
theorem spec_C1_w :
    (reconcile [⟨("k"), ("Hello")⟩]
      ⟨[("fr")], [⟨("Other"), [(("fr"), some ("x"))]⟩,
        ⟨("Hello"), [(("fr"), some ("Bonjour"))]⟩]⟩ 0 0 ("fr")).1[0 - 0]? =
      some ⟨("k"), ("Hello"), ("Bonjour"), false⟩ := by
  exact spec_C1_thm [⟨("k"), ("Hello")⟩] _ 0 0 0 ("fr") ("Bonjour")
    [⟨("Other"), [(("fr"), some ("x"))]⟩] [] ⟨("Hello"), [(("fr"), some ("Bonjour"))]⟩
    (by decide) (by decide) rfl (by decide) (by decide) (by decide) (by decide)

/-- C2: for an identifier row in range whose source text matches no
translation row, the reconciler emits the source text with
`used_fallback = true`, records a no-translation-found warning for that row
and language, the batch is not aborted (the output has one record for every
row of the range), and the warning also appears in the collected warning
list of `generate_string_files`. -/
theorem spec_C2_thm (adf : List IdentifierRow) (tdf : TranslationTable)
    (s e i : Nat) (lang platform : String)
    (h1 : s ≤ i) (h2 : i ≤ e)
    (hno : ∀ u ∈ tdf.rows, u.english_value ≠ (adf.getD i default).english_value) :
    (reconcile adf tdf s e lang).1[i - s]? =
      some ⟨(adf.getD i default).string_name, (adf.getD i default).english_value,
        (adf.getD i default).english_value, true⟩
    ∧ Warning.noTranslationFound (adf.getD i default).english_value lang ∈
        (reconcile adf tdf s e lang).2
    ∧ (reconcile adf tdf s e lang).1.length = e + 1 - s
    ∧ (lang ∈ tdf.languages →
        Warning.noTranslationFound (adf.getD i default).english_value lang ∈
          (generate_string_files adf tdf s e platform).2) := by
  have hv := resolveValue_none tdf lang (adf.getD i default).english_value hno
  have hrec : (reconcile adf tdf s e lang).1[i - s]? =
      some ⟨(adf.getD i default).string_name, (adf.getD i default).english_value,
        (adf.getD i default).english_value, true⟩ := by
    rw [reconcile_getElem? adf tdf s e i lang h1 h2, resolveRow_eq, hv]
  have hw : Warning.noTranslationFound (adf.getD i default).english_value lang ∈
      (reconcile adf tdf s e lang).2 := by
    refine mem_reconcile_warning adf tdf s e i lang _ h1 h2 ?_
    rw [resolveRow_eq, hv]
  refine ⟨hrec, hw, reconcile_length adf tdf s e lang, fun hlang => ?_⟩
  unfold generate_string_files
  exact mem_concatAll (List.mem_map.mpr ⟨lang, hlang, rfl⟩) hw

/-- C2 (witness): the claim at a concrete input with an untranslated row. -/
theorem spec_C2_w :
    (reconcile [⟨("k"), ("Bye")⟩] ⟨[("fr")], []⟩ 0 0 ("fr")).1[0 - 0]? =
      some ⟨("k"), ("Bye"), ("Bye"), true⟩
    ∧ Warning.noTranslationFound ("Bye") ("fr") ∈
        (reconcile [⟨("k"), ("Bye")⟩] ⟨[("fr")], []⟩ 0 0 ("fr")).2
    ∧ (reconcile [⟨("k"), ("Bye")⟩] ⟨[("fr")], []⟩ 0 0 ("fr")).1.length = 0 + 1 - 0
    ∧ (("fr") ∈ (⟨[("fr")], []⟩ : TranslationTable).languages →
        Warning.noTranslationFound ("Bye") ("fr") ∈
          (generate_string_files [⟨("k"), ("Bye")⟩] ⟨[("fr")], []⟩ 0 0 ("android")).2) := by
  exact spec_C2_thm [⟨("k"), ("Bye")⟩] ⟨[("fr")], []⟩ 0 0 0 ("fr") ("android")
    (by decide) (by decide) (by intro u hu; cases hu)

/-- C3 (counterexample): with two translation rows sharing source text
`Hello`, the first with the non-blank `fr` cell `Bonjour` and the second
with a blank cell, a matching row with a blank L cell exists, yet the
reconciler emits `Bonjour` with `used_fallback = false` and no warning,
not the source-text fallback with an empty-translation warning as the
claim states. -/
theorem spec_C3_cex :
    (⟨("Hello"), [(("fr"), some (""))]⟩ : TranslationRow) ∈
        (⟨[("fr")], [⟨("Hello"), [(("fr"), some ("Bonjour"))]⟩,
          ⟨("Hello"), [(("fr"), some (""))]⟩]⟩ : TranslationTable).rows
    ∧ pyStrip ("") = ("")
    ∧ (reconcile [⟨("k"), ("Hello")⟩]
        ⟨[("fr")], [⟨("Hello"), [(("fr"), some ("Bonjour"))]⟩,
          ⟨("Hello"), [(("fr"), some (""))]⟩]⟩ 0 0 ("fr")).1 =
        [⟨("k"), ("Hello"), ("Bonjour"), false⟩]
    ∧ (reconcile [⟨("k"), ("Hello")⟩]
        ⟨[("fr")], [⟨("Hello"), [(("fr"), some ("Bonjour"))]⟩,
          ⟨("Hello"), [(("fr"), some (""))]⟩]⟩ 0 0 ("fr")).2 = [] := by
  refine ⟨by simp, by decide, by decide, by decide⟩

/-- C3 (amended): for every identifier row in range and language L, if the
first matching translation row's L cell is empty, blank after trimming, or
absent, the reconciler emits the source text with `used_fallback = true`
and records an empty-translation warning; the concrete scenario of the
claim is unchanged and holds. -/
theorem spec_C3_thm (adf : List IdentifierRow) (tdf : TranslationTable)
    (s e i : Nat) (lang : String)
    (pre post : List TranslationRow) (t : TranslationRow)
    (h1 : s ≤ i) (h2 : i ≤ e)
    (hsplit : tdf.rows = pre ++ t :: post)
    (hpre : ∀ u ∈ pre, u.english_value ≠ (adf.getD i default).english_value)
    (ht : t.english_value = (adf.getD i default).english_value)
    (hblank : ∀ v, t.cell lang = some v → pyStrip v = ("")) :
    (reconcile adf tdf s e lang).1[i - s]? =
      some ⟨(adf.getD i default).string_name, (adf.getD i default).english_value,
        (adf.getD i default).english_value, true⟩
    ∧ Warning.emptyTranslation (adf.getD i default).english_value lang ∈
        (reconcile adf tdf s e lang).2 := by
  have hv : resolveValue tdf lang (adf.getD i default).english_value =
      ((adf.getD i default).english_value, true,
        some (Warning.emptyTranslation (adf.getD i default).english_value lang)) := by
    rw [resolveValue_first tdf lang _ pre post t hsplit hpre ht]
    unfold cellResolve
    cases hc : t.cell lang with
    | none => rfl
    | some v => simp only [if_pos (hblank v hc)]
  constructor
  · rw [reconcile_getElem? adf tdf s e i lang h1 h2, resolveRow_eq, hv]
  · refine mem_reconcile_warning adf tdf s e i lang _ h1 h2 ?_
    rw [resolveRow_eq, hv]

/-- C3 (witness): the scenario of the claim: identifier `missing`/`Bye`
with translation row `Bye` whose `fr` cell is empty yields the fallback
record and an empty-translation warning for `(Bye, fr)`. -/
theorem spec_C3_w :
    (reconcile [⟨("missing"), ("Bye")⟩]
      ⟨[("fr")], [⟨("Bye"), [(("fr"), some (""))]⟩]⟩ 0 0 ("fr")).1[0 - 0]? =
      some ⟨("missing"), ("Bye"), ("Bye"), true⟩
    ∧ Warning.emptyTranslation ("Bye") ("fr") ∈
        (reconcile [⟨("missing"), ("Bye")⟩]
          ⟨[("fr")], [⟨("Bye"), [(("fr"), some (""))]⟩]⟩ 0 0 ("fr")).2 := by
  exact spec_C3_thm [⟨("missing"), ("Bye")⟩]
    ⟨[("fr")], [⟨("Bye"), [(("fr"), some (""))]⟩]⟩ 0 0 0 ("fr")
    [] [] ⟨("Bye"), [(("fr"), some (""))]⟩
    (by decide) (by decide) rfl (by intro u hu; cases hu) (by decide)
    (by intro v hv; cases hv; decide)

/-- C7: translation lookup returns the first matching row in table order —
whatever rows come after it — and matching is exact, case-sensitive string
equality: a row differing only in case is not matched and the fallback
fires. -/
theorem spec_C7_thm (tdf : TranslationTable) (lang key : String)
    (pre post : List TranslationRow) (t : TranslationRow)
    (hsplit : tdf.rows = pre ++ t :: post)
    (hpre : ∀ u ∈ pre, u.english_value ≠ key)
    (ht : t.english_value = key) :
    resolveValue tdf lang key = cellResolve lang key t
    ∧ resolveValue ⟨[("fr")], [⟨("hello"), [(("fr"), some ("x"))]⟩]⟩ ("fr") ("Hello") =
        (("Hello"), true, some (Warning.noTranslationFound ("Hello") ("fr"))) := by
  exact ⟨resolveValue_first tdf lang key pre post t hsplit hpre ht, by decide⟩

/-- C7 (witness): with two rows both keyed `Hello`, the resolution equals
the per-cell resolution of the first of them. -/
theorem spec_C7_w :
    resolveValue
        ⟨[("fr")], [⟨("Other"), [(("fr"), some ("n1"))]⟩,
          ⟨("Hello"), [(("fr"), some ("first"))]⟩,
          ⟨("Hello"), [(("fr"), some ("second"))]⟩]⟩ ("fr") ("Hello") =
      cellResolve ("fr") ("Hello") ⟨("Hello"), [(("fr"), some ("first"))]⟩
    ∧ resolveValue ⟨[("fr")], [⟨("hello"), [(("fr"), some ("x"))]⟩]⟩ ("fr") ("Hello") =
        (("Hello"), true, some (Warning.noTranslationFound ("Hello") ("fr"))) := by
  exact spec_C7_thm
    ⟨[("fr")], [⟨("Other"), [(("fr"), some ("n1"))]⟩,
      ⟨("Hello"), [(("fr"), some ("first"))]⟩,
      ⟨("Hello"), [(("fr"), some ("second"))]⟩]⟩ ("fr") ("Hello")
    [⟨("Other"), [(("fr"), some ("n1"))]⟩] [⟨("Hello"), [(("fr"), some ("second"))]⟩]
    ⟨("Hello"), [(("fr"), some ("first"))]⟩ rfl (by decide) (by decide)

/-- C8: a valid inclusive range `[start, end]` is processed in identifier
table order: the record at output position `j` comes from input row
`start + j`, the output has exactly `end - start + 1` records for each
language, the range `{start := 0, end := 0}` yields exactly the record of
the first row, and a range with `start > end` violates the row-range
constraints the collaborator enforces. -/
theorem spec_C8_thm (adf : List IdentifierRow) (tdf : TranslationTable)
    (s e : Nat) (lang : String) :
    (∀ j, s + j ≤ e →
      (reconcile adf tdf s e lang).1[j]? =
        some (resolveRow tdf lang (adf.getD (s + j) default)).1)
    ∧ (s ≤ e → (reconcile adf tdf s e lang).1.length = e - s + 1)
    ∧ (reconcile adf tdf 0 0 lang).1 = [(resolveRow tdf lang (adf.getD 0 default)).1]
    ∧ (s > e → ¬ validRange adf.length s e) := by
  refine ⟨?_, ?_, ?_, ?_⟩
  · intro j hj
    have h := reconcile_getElem? adf tdf s e (s + j) lang (by omega) hj
    simpa using h
  · intro hse
    rw [reconcile_length]
    omega
  · rw [reconcile_fst]
    rfl
  · intro hgt hv
    rcases hv with ⟨_, h2, _⟩
    omega

/-- C8 (witness): the range facts at a concrete two-row table, and the
rejection of `start = 3 > 1 = end`. -/
theorem spec_C8_w :
    (reconcile [⟨("a"), ("A")⟩, ⟨("b"), ("B")⟩] ⟨[("fr")], []⟩ 0 1 ("fr")).1.length = 1 - 0 + 1
    ∧ ¬ validRange 2 3 1 := by
  exact ⟨(spec_C8_thm [⟨("a"), ("A")⟩, ⟨("b"), ("B")⟩] ⟨[("fr")], []⟩ 0 1 ("fr")).2.1
      (by decide),
    (spec_C8_thm [⟨("a"), ("A")⟩, ⟨("b"), ("B")⟩] ⟨[("fr")], []⟩ 3 1 ("fr")).2.2.2
      (by decide)⟩

theorem strAppend_assoc (a b c : String) : (a ++ b) ++ c = a ++ (b ++ c) := by
  apply String.ext
  simp [String.data_append]

theorem concatAll_singleton {α β : Type} (g : α → β) (l : List α) :
    concatAll (l.map (fun r => [g r])) = l.map g := by
  induction l with
  | nil => rfl
  | cons x xs ih => simp [concatAll, ih]

theorem joinLines_cons (a : String) (l : List String) (h : l ≠ []) :
    joinLines (a :: l) = a ++ (("\n") ++ joinLines l) := by
  cases l with
  | nil => cases h rfl
  | cons x xs => rfl

theorem joinLines_append_single (l : List String) (b : String) (h : l ≠ []) :
    joinLines (l ++ [b]) = joinLines l ++ (("\n") ++ b) := by
  induction l with
  | nil => cases h rfl
  | cons x xs ih =>
    cases xs with
    | nil => rfl
    | cons y ys =>
      have hne : y :: ys ≠ [] := by simp
      have hne2 : (y :: ys) ++ [b] ≠ [] := by simp
      calc joinLines ((x :: y :: ys) ++ [b])
          = x ++ (("\n") ++ joinLines ((y :: ys) ++ [b])) := rfl
        _ = x ++ (("\n") ++ (joinLines (y :: ys) ++ (("\n") ++ b))) := by rw [ih hne]
        _ = (x ++ (("\n") ++ joinLines (y :: ys))) ++ (("\n") ++ b) := by
            rw [strAppend_assoc, strAppend_assoc]
        _ = joinLines (x :: y :: ys) ++ (("\n") ++ b) := rfl

theorem rowLines_android : rowLines ("android") = fun r => [androidLine r] := by
  funext r
  rfl

theorem rowLines_ios : rowLines ("ios") = fun r => [iosLine r] := by
  funext r
  rfl

theorem reconcile_ne_nil (adf : List IdentifierRow) (tdf : TranslationTable)
    (s e : Nat) (lang : String) (hse : s ≤ e) :
    (reconcile adf tdf s e lang).1 ≠ [] := by
  intro h
  have hl := reconcile_length adf tdf s e lang
  rw [h] at hl
  simp at hl
  omega

theorem fileFor_android (adf : List IdentifierRow) (tdf : TranslationTable)
    (s e : Nat) (lang : String) (hse : s ≤ e) :
    fileFor adf tdf s e ("android") lang =
      ("<resources>\n") ++
        (joinLines ((reconcile adf tdf s e lang).1.map androidLine) ++ ("\n</resources>")) := by
  have hne : (reconcile adf tdf s e lang).1.map androidLine ≠ [] := by
    simpa using reconcile_ne_nil adf tdf s e lang hse
  unfold fileFor
  rw [rowLines_android]
  dsimp only
  rw [concatAll_singleton]
  simp only [List.append_assoc, List.singleton_append, List.cons_append, List.nil_append,
    if_pos, beq_self_eq_true, reduceIte]
  rw [joinLines_cons ("<resources>")
      ((reconcile adf tdf s e lang).1.map androidLine ++ [("</resources>")]) (by simp),
    joinLines_append_single ((reconcile adf tdf s e lang).1.map androidLine)
      ("</resources>") hne]
  rw [← strAppend_assoc, ← strAppend_assoc]
  rfl

/-- C4: for a valid range the Android serializer produces exactly
`<resources>\n`, one line `    <string name="NAME">VALUE</string>` per
resolved record in sequence order, and `\n</resources>`; and the concrete
scenario of the claim produces exactly the stated document. -/
theorem spec_C4_thm (adf : List IdentifierRow) (tdf : TranslationTable)
    (s e : Nat) (lang : String) :
    (s ≤ e →
      fileFor adf tdf s e ("android") lang =
        ("<resources>\n") ++
          (joinLines ((reconcile adf tdf s e lang).1.map
            (fun r => ("    <string name=\"") ++
              (r.name ++ (("\">") ++ (r.value ++ ("</string>")))))) ++
           ("\n</resources>")))
    ∧ (generate_string_files [⟨("ok"), ("Hello")⟩]
        ⟨[("fr")], [⟨("Hello"), [(("fr"), some ("Bonjour"))]⟩]⟩ 0 0 ("android")).1 =
      [(("fr"), ("<resources>\n    <string name=\"ok\">Bonjour</string>\n</resources>"))] := by
  exact ⟨fun hse => fileFor_android adf tdf s e lang hse, by decide⟩

/-- C4 (witness): the document shape at the concrete scenario range. -/
theorem spec_C4_w :
    fileFor [⟨("ok"), ("Hello")⟩]
        ⟨[("fr")], [⟨("Hello"), [(("fr"), some ("Bonjour"))]⟩]⟩ 0 0 ("android") ("fr") =
      ("<resources>\n") ++
        (joinLines ((reconcile [⟨("ok"), ("Hello")⟩]
          ⟨[("fr")], [⟨("Hello"), [(("fr"), some ("Bonjour"))]⟩]⟩ 0 0 ("fr")).1.map
            (fun r => ("    <string name=\"") ++
              (r.name ++ (("\">") ++ (r.value ++ ("</string>")))))) ++
         ("\n</resources>")) := by
  exact (spec_C4_thm [⟨("ok"), ("Hello")⟩]
    ⟨[("fr")], [⟨("Hello"), [(("fr"), some ("Bonjour"))]⟩]⟩ 0 0 ("fr")).1 (by decide)

/-- C6: the iOS serializer output is exactly the newline-join of one line
per record, each line being the double-quoted source text, the separator
` = `, the double-quoted resolved value and a trailing semicolon — the key
is the source text, not the identifier name; the concrete scenario
produces exactly `"Hello" = "Bonjour";`. -/
theorem spec_C6_thm (adf : List IdentifierRow) (tdf : TranslationTable)
    (s e : Nat) (lang : String) :
    fileFor adf tdf s e ("ios") lang =
      joinLines ((reconcile adf tdf s e lang).1.map
        (fun r => ("\"") ++ (r.source_text ++ (("\" = \"") ++ (r.value ++ ("\";"))))))
    ∧ (generate_string_files [⟨("ok"), ("Hello")⟩]
        ⟨[("fr")], [⟨("Hello"), [(("fr"), some ("Bonjour"))]⟩]⟩ 0 0 ("ios")).1 =
      [(("fr"), ("\"Hello\" = \"Bonjour\";"))] := by
  constructor
  · unfold fileFor
    rw [rowLines_ios]
    dsimp only
    rw [concatAll_singleton]
    have hb : (("ios" : String) == ("android")) = false := by decide
    simp only [hb, Bool.false_eq_true, if_false, List.nil_append, List.append_nil]
    rfl
  · decide

/-- C9 (counterexample): on the line `""Hi"" = "Salut";` the deserializer
strips every leading and trailing quote character from the key, producing
`Hi`, whereas stripping a single layer of wrapping double-quotes as the
claim states would produce `"Hi"`. -/
theorem spec_C9_cex :
    strings_to_sheet ("\"\"Hi\"\" = \"Salut\";") = Except.ok [(("Hi"), ("Salut"))]
    ∧ strings_to_sheet_spec ("\"\"Hi\"\" = \"Salut\";") =
        Except.ok [(("\"Hi\""), ("Salut"))]
    ∧ (("Hi") : String) ≠ ("\"Hi\"") := by
  refine ⟨rfl, rfl, by decide⟩

/-- C9 (amended): the deserializer reads line by line in file order, skips
blank lines and `//` comments, splits the remaining lines on the literal
` = `, strips all leading and trailing double-quote characters from the key
and all leading and trailing double-quote or semicolon characters from the
value; the concrete example yields exactly the two stated rows, and a line
with no separator halts the entire parse with an error. -/
theorem spec_C9_thm :
    strings_to_sheet ("\"Hi\" = \"Salut\";\n// comment\n\"Bye\" = \"Au revoir\";") =
      Except.ok [(("Hi"), ("Salut")), (("Bye"), ("Au revoir"))]
    ∧ (∀ raw rest, (pyStrip raw = ("") ∨ begins ("//").data (pyStrip raw).data = true) →
        strings_to_sheet_go (raw :: rest) = strings_to_sheet_go rest)
    ∧ (∀ raw rest n v tail, pyStrip raw ≠ ("") →
        begins ("//").data (pyStrip raw).data = false →
        pySplit (" = ") (pyStrip raw) = [n, v] →
        strings_to_sheet_go rest = Except.ok tail →
        strings_to_sheet_go (raw :: rest) =
          Except.ok ((pyStripSet ['"'] n, pyStripSet ['"', ';'] v) :: tail))
    ∧ (∀ raw rest x, pyStrip raw ≠ ("") →
        begins ("//").data (pyStrip raw).data = false →
        pySplit (" = ") (pyStrip raw) = [x] →
        strings_to_sheet_go (raw :: rest) = Except.error ("ValueError")) := by
  refine ⟨rfl, ?_, ?_, ?_⟩
  · intro raw rest h
    by_cases h0 : pyStrip raw = ("")
    · simp only [strings_to_sheet_go]
      rw [if_pos h0]
    · rcases h with h | h
      · exact absurd h h0
      · simp only [strings_to_sheet_go]
        rw [if_neg h0, if_pos h]
  · intro raw rest n v tail h1 h2 h3 h4
    simp only [strings_to_sheet_go]
    rw [if_neg h1, if_neg (by simp [h2]), h3]
    dsimp only
    rw [h4]
  · intro raw rest x h1 h2 h3
    simp only [strings_to_sheet_go]
    rw [if_neg h1, if_neg (by simp [h2]), h3]

/-- C9 (witness): a comment line is skipped and a separator-free line
aborts the parse. -/
theorem spec_C9_w :
    strings_to_sheet_go [("// c"), ("\"A\" = \"B\";")] =
      strings_to_sheet_go [("\"A\" = \"B\";")]
    ∧ strings_to_sheet_go [("junk")] = Except.error ("ValueError") := by
  exact ⟨spec_C9_thm.2.1 ("// c") [("\"A\" = \"B\";")] (Or.inr (by decide)),
    spec_C9_thm.2.2.2 ("junk") [] ("junk") (by decide) (by decide) (by decide)⟩

theorem chop?_append : ∀ (pat r : List Char), chop? pat (pat ++ r) = some r := by
  intro pat
  induction pat with
  | nil => intro r; rfl
  | cons p ps ih => intro r; simp [chop?, ih]

theorem chop?_cons_ne {p c : Char} (pat s : List Char) (h : p ≠ c) :
    chop? (p :: pat) (c :: s) = none := by
  simp [chop?, h]

theorem chop?_cons_self (p : Char) (pat s : List Char) :
    chop? (p :: pat) (p :: s) = chop? pat s := by
  simp [chop?]

theorem findSub_of_chop {pat s r : List Char} (h : chop? pat s = some r) :
    findSub pat s = some ([], r) := by
  cases s with
  | nil => simp [findSub, h]
  | cons c cs => simp [findSub, h]

theorem findSub_skip {pat : List Char} {c : Char} {s : List Char}
    (h : chop? pat (c :: s) = none) :
    findSub pat (c :: s) = (findSub pat s).map (fun p => (c :: p.1, p.2)) := by
  simp only [findSub, h]
  cases hf : findSub pat s with
  | none => rfl
  | some p => cases p; rfl

theorem findSub_clean (p : Char) (pat : List Char) :
    ∀ (x y : List Char), (∀ c ∈ x, c ≠ p) →
      findSub (p :: pat) (x ++ ((p :: pat) ++ y)) = some (x, y) := by
  intro x
  induction x with
  | nil =>
    intro y _
    exact findSub_of_chop (chop?_append (p :: pat) y)
  | cons c cs ih =>
    intro y hx
    have hc : p ≠ c := fun h => (hx c (by simp)) h.symm
    rw [List.cons_append, findSub_skip (chop?_cons_ne _ _ hc),
      ih y (fun d hd => hx d (by simp [hd]))]
    rfl

theorem patL_cons : patL = '<' :: ("string name=\"").data := by decide

theorem qL_cons : qL = '"' :: (">").data := by decide

theorem eL_cons : eL = '<' :: ("/string>").data := by decide

theorem findSub_junk2 (y : List Char) :
    findSub patL (("\n    ").data ++ (patL ++ y)) = some (("\n    ").data, y) := by
  rw [patL_cons]
  exact findSub_clean '<' (("string name=\"").data) (("\n    ").data) y (by decide)

theorem findSub_junk1 (y : List Char) :
    findSub patL (("<resources>\n    ").data ++ (patL ++ y)) =
      some (("<resources>\n    ").data, y) := by
  have hsplit : (("<resources>\n    ").data : List Char) =
      '<' :: ("resources>\n    ").data := by decide
  rw [hsplit, List.cons_append]
  have hr : ((("resources>\n    ").data : List Char) ++ (patL ++ y)) =
      'r' :: ((("esources>\n    ").data : List Char) ++ (patL ++ y)) := by
    have h0 : (("resources>\n    ").data : List Char) =
        'r' :: ("esources>\n    ").data := by decide
    rw [h0, List.cons_append]
  have hchop : chop? patL ('<' :: (("resources>\n    ").data ++ (patL ++ y))) = none := by
    rw [hr, patL_cons, chop?_cons_self]
    have h1 : (("string name=\"").data : List Char) =
        's' :: ("tring name=\"").data := by decide
    rw [h1]
    exact chop?_cons_ne _ _ (by decide)
  rw [findSub_skip hchop]
  rw [patL_cons]
  rw [findSub_clean '<' (("string name=\"").data) (("resources>\n    ").data) y (by decide)]
  rfl

theorem parse_succ (n : Nat) (s : List Char) :
    parseStringsAux (n + 1) s =
      match findSub patL s with
      | none => []
      | some (_, rest1) =>
        match findSub qL rest1 with
        | none => []
        | some (nm, rest2) =>
          match findSub eL rest2 with
          | none => []
          | some (ct, rest3) =>
            (String.mk nm, if ct.isEmpty then none else some (String.mk ct))
              :: parseStringsAux n rest3 := rfl

theorem parse_end (fuel : Nat) :
    parseStringsAux fuel (("\n</resources>").data) = [] := by
  cases fuel with
  | zero => rfl
  | succ n =>
    rw [parse_succ]
    have h : findSub patL (("\n</resources>").data) = none := by decide
    rw [h]

theorem parse_end2 (fuel : Nat) :
    parseStringsAux fuel ('\n' :: ("\n</resources>").data) = [] := by
  cases fuel with
  | zero => rfl
  | succ n =>
    rw [parse_succ]
    have h : findSub patL ('\n' :: ("\n</resources>").data) = none := by decide
    rw [h]

theorem parse_step (fuel : Nat) (nm val tail : List Char)
    (hnm : ∀ c ∈ nm, c ≠ '"') (hval : ∀ c ∈ val, c ≠ '<') :
    parseStringsAux (fuel + 1)
        (("\n    ").data ++ (patL ++ (nm ++ (qL ++ (val ++ (eL ++ tail)))))) =
      (String.mk nm, if val.isEmpty then none else some (String.mk val))
        :: parseStringsAux fuel tail := by
  rw [parse_succ, findSub_junk2]
  dsimp only
  rw [qL_cons, findSub_clean '"' ((">").data) nm (val ++ (eL ++ tail)) hnm]
  dsimp only
  rw [eL_cons, findSub_clean '<' (("/string>").data) val tail hval]

theorem parse_first (fuel : Nat) (nm val tail : List Char)
    (hnm : ∀ c ∈ nm, c ≠ '"') (hval : ∀ c ∈ val, c ≠ '<') :
    parseStringsAux (fuel + 1)
        (("<resources>\n    ").data ++ (patL ++ (nm ++ (qL ++ (val ++ (eL ++ tail)))))) =
      (String.mk nm, if val.isEmpty then none else some (String.mk val))
        :: parseStringsAux fuel tail := by
  rw [parse_succ, findSub_junk1]
  dsimp only
  rw [qL_cons, findSub_clean '"' ((">").data) nm (val ++ (eL ++ tail)) hnm]
  dsimp only
  rw [eL_cons, findSub_clean '<' (("/string>").data) val tail hval]

/-- The character data of the generated document after the `<resources>`
header: the joined record lines followed by the closing tag line. -/
def docTail (rs : List ResolvedRecord) : List Char :=
  (joinLines (rs.map androidLine)).data ++ ("\n</resources>").data

theorem lineData_eq (r : ResolvedRecord) :
    (androidLine r).data =
      ("    ").data ++ (patL ++ (r.name.data ++ (qL ++ (r.value.data ++ eL)))) := by
  unfold androidLine
  have hsplit : (("    <string name=\"").data : List Char) =
      ("    ").data ++ patL := by decide
  simp only [String.data_append, hsplit, List.append_assoc]
  rfl

theorem docTail_single (r : ResolvedRecord) :
    docTail [r] = (androidLine r).data ++ ("\n</resources>").data := rfl

theorem docTail_cons (r : ResolvedRecord) (rs : List ResolvedRecord) (h : rs ≠ []) :
    docTail (r :: rs) = (androidLine r).data ++ ('\n' :: docTail rs) := by
  unfold docTail
  rw [List.map_cons,
    joinLines_cons (androidLine r) (rs.map androidLine) (by simpa using h)]
  simp only [String.data_append, List.append_assoc]
  rfl

theorem docTail_length (rs : List ResolvedRecord) : rs.length ≤ (docTail rs).length := by
  induction rs with
  | nil => simp [docTail, joinLines]
  | cons r rs ih =>
    cases rs with
    | nil => simp [docTail_single]
    | cons s t =>
      rw [docTail_cons r (s :: t) (by simp)]
      simp only [List.length_append, List.length_cons] at ih ⊢
      omega

theorem parse_rec (rs : List ResolvedRecord) :
    ∀ fuel : Nat,
      (∀ r ∈ rs, (∀ c ∈ r.name.data, c ≠ '"') ∧ (∀ c ∈ r.value.data, c ≠ '<')
        ∧ r.value ≠ ("")) →
      parseStringsAux (rs.length + fuel) ('\n' :: docTail rs) =
        rs.map (fun r => (r.name, some r.value)) := by
  induction rs with
  | nil =>
    intro fuel _
    simpa [docTail, joinLines] using parse_end2 fuel
  | cons r rs ih =>
    intro fuel hok
    have hr := hok r (by simp)
    have hval : (r.value.data.isEmpty) = false := by
      rcases hr with ⟨-, -, hv⟩
      cases hd : r.value.data with
      | nil =>
        exact absurd (String.ext hd) hv
      | cons a l => rfl
    cases rs with
    | nil =>
      have hshape : ('\n' :: docTail [r]) =
          (("\n    ").data ++
            (patL ++ (r.name.data ++ (qL ++ (r.value.data ++
              (eL ++ ("\n</resources>").data)))))) := by
        rw [docTail_single, lineData_eq]
        simp [List.append_assoc]
      rw [show ([r].length : Nat) + fuel = fuel + 1 from by simp [Nat.add_comm]]
      rw [hshape, parse_step fuel r.name.data r.value.data (("\n</resources>").data)
        hr.1 hr.2.1]
      rw [parse_end, hval]
      rfl
    | cons s t =>
      have hshape : ('\n' :: docTail (r :: s :: t)) =
          (("\n    ").data ++
            (patL ++ (r.name.data ++ (qL ++ (r.value.data ++
              (eL ++ ('\n' :: docTail (s :: t)))))))) := by
        rw [docTail_cons r (s :: t) (by simp), lineData_eq]
        simp [List.append_assoc]
      rw [show ((r :: s :: t).length : Nat) + fuel = ((s :: t).length + fuel) + 1 from by
        simp [List.length_cons]
        omega]
      rw [hshape, parse_step ((s :: t).length + fuel) r.name.data r.value.data
        ('\n' :: docTail (s :: t)) hr.1 hr.2.1]
      rw [ih fuel (fun u hu => hok u (by simp [hu])), hval]
      rfl

/-- C5 (counterexample): with the identifier row `(k, "")` and no matching
translation, the resolved value is the empty string; the generated element
`<string name="k"></string>` has no text content, so the XML deserializer
returns `none` for it rather than the empty string, and the round trip
does not restore the resolved value even though no reserved character
occurs in any name, source text or value. -/
theorem spec_C5_cex :
    xml_to_sheet (fileFor [⟨("k"), ("")⟩] ⟨[("fr")], []⟩ 0 0 ("android") ("fr")) =
      [(("k"), none)]
    ∧ (reconcile [⟨("k"), ("")⟩] ⟨[("fr")], []⟩ 0 0 ("fr")).1.map
        (fun r => (r.name, some r.value)) = [(("k"), some (""))]
    ∧ [(("k"), (none : Option String))] ≠ [(("k"), some (""))] := by
  refine ⟨by decide, by decide, by decide⟩

/-- C10: parsing a generated document whose single string element has the
given name and no text content yields a record whose value is `none`
(absent), not the empty string. -/
theorem spec_C10_thm (name : String) (hname : ∀ c ∈ name.data, c ≠ '"') :
    xml_to_sheet (("<resources>\n    <string name=\"") ++
        (name ++ ("\"></string>\n</resources>"))) = [(name, none)] := by
  unfold xml_to_sheet
  have hdata : ((("<resources>\n    <string name=\"") ++
      (name ++ ("\"></string>\n</resources>")))).data =
      ("<resources>\n    ").data ++ (patL ++ (name.data ++ (qL ++
        (([] : List Char) ++ (eL ++ ("\n</resources>").data))))) := by
    simp [patL, qL, eL, String.data_append, List.append_assoc]
  generalize hF : ((("<resources>\n    <string name=\"") ++
    (name ++ ("\"></string>\n</resources>")))).data.length = F
  rw [hdata]
  rw [parse_first F name.data [] (("\n</resources>").data) hname (by simp)]
  rw [parse_end F]
  rfl

/-- C10 (witness): the claim at the concrete document of the claim. -/
theorem spec_C10_w :
    xml_to_sheet (("<resources>\n    <string name=\"k\"></string>\n</resources>")) =
      [(("k"), none)] := by
  have h := spec_C10_thm ("k") (by decide)
  exact h

/-- C5 (amended): converting the Android output of generate over the full
row range back to a table restores, for every identifier row, its name and
the resolved value for L, provided no name, source text, or resolved value
contains the reserved characters `<`, `&`, `"` and every resolved value is
non-empty. -/
theorem spec_C5_thm (adf : List IdentifierRow) (tdf : TranslationTable) (lang : String)
    (hne : adf ≠ [])
    (hok : ∀ r ∈ (reconcile adf tdf 0 (adf.length - 1) lang).1,
      noReserved r.name ∧ noReserved r.value ∧ r.value ≠ ("")) :
    (lang ∈ tdf.languages →
      (lang, fileFor adf tdf 0 (adf.length - 1) ("android") lang) ∈
        (generate_string_files adf tdf 0 (adf.length - 1) ("android")).1)
    ∧ xml_to_sheet (fileFor adf tdf 0 (adf.length - 1) ("android") lang) =
        (reconcile adf tdf 0 (adf.length - 1) lang).1.map
          (fun r => (r.name, some r.value)) := by
  constructor
  · intro hlang
    unfold generate_string_files
    exact List.mem_map.mpr ⟨lang, hlang, rfl⟩
  · have hok' : ∀ r ∈ (reconcile adf tdf 0 (adf.length - 1) lang).1,
        (∀ c ∈ r.name.data, c ≠ '"') ∧ (∀ c ∈ r.value.data, c ≠ '<')
          ∧ r.value ≠ ("") := by
      intro r hr
      rcases hok r hr with ⟨hn, hv, hvne⟩
      exact ⟨fun c hc => (hn c hc).2.2, fun c hc => (hv c hc).1, hvne⟩
    have hrne : (reconcile adf tdf 0 (adf.length - 1) lang).1 ≠ [] :=
      reconcile_ne_nil adf tdf 0 (adf.length - 1) lang (Nat.zero_le _)
    have hdoc_data : (fileFor adf tdf 0 (adf.length - 1) ("android") lang).data =
        ("<resources>").data ++
          ('\n' :: docTail ((reconcile adf tdf 0 (adf.length - 1) lang).1)) := by
      rw [fileFor_android adf tdf 0 (adf.length - 1) lang (Nat.zero_le _)]
      unfold docTail
      simp [String.data_append, List.append_assoc]
    cases hrec : (reconcile adf tdf 0 (adf.length - 1) lang).1 with
    | nil => exact absurd hrec hrne
    | cons r rest =>
      rw [hrec] at hok' hdoc_data
      have hrok := hok' r (by simp)
      have hval : r.value.data.isEmpty = false := by
        cases hd : r.value.data with
        | nil => exact absurd (String.ext hd) hrok.2.2
        | cons a l => rfl
      have hlen : rest.length <
          (fileFor adf tdf 0 (adf.length - 1) ("android") lang).data.length := by
        rw [hdoc_data]
        have hdt := docTail_length (r :: rest)
        simp only [List.length_append, List.length_cons] at hdt ⊢
        omega
      unfold xml_to_sheet
      generalize hF : (fileFor adf tdf 0 (adf.length - 1) ("android") lang).data.length = F
      rw [hF] at hlen
      rw [hdoc_data]
      cases rest with
      | nil =>
        have hshape : ((("<resources>").data : List Char) ++ ('\n' :: docTail [r])) =
            ("<resources>\n    ").data ++ (patL ++ (r.name.data ++ (qL ++
              (r.value.data ++ (eL ++ ("\n</resources>").data))))) := by
          rw [docTail_single, lineData_eq]
          simp [patL, qL, eL, List.append_assoc]
        rw [hshape, parse_first F r.name.data r.value.data (("\n</resources>").data)
          hrok.1 hrok.2.1, parse_end F, hval]
        rfl
      | cons s t =>
        have hshape : ((("<resources>").data : List Char) ++ ('\n' :: docTail (r :: s :: t))) =
            ("<resources>\n    ").data ++ (patL ++ (r.name.data ++ (qL ++
              (r.value.data ++ (eL ++ ('\n' :: docTail (s :: t))))))) := by
          rw [docTail_cons r (s :: t) (by simp), lineData_eq]
          simp [patL, qL, eL, List.append_assoc]
        rw [hshape, parse_first F r.name.data r.value.data ('\n' :: docTail (s :: t))
          hrok.1 hrok.2.1]
        have hF2 : F = (s :: t).length + (F - (s :: t).length) := by
          simp only [List.length_cons] at hlen ⊢
          omega
        rw [hF2, parse_rec (s :: t) (F - (s :: t).length)
          (fun u hu => hok' u (by simp [hu])), hval]
        rfl

/-- C5 (witness): the round trip at the concrete scenario table. -/
theorem spec_C5_w :
    xml_to_sheet (fileFor [⟨("ok"), ("Hello")⟩]
        ⟨[("fr")], [⟨("Hello"), [(("fr"), some ("Bonjour"))]⟩]⟩ 0 0 ("android") ("fr")) =
      (reconcile [⟨("ok"), ("Hello")⟩]
        ⟨[("fr")], [⟨("Hello"), [(("fr"), some ("Bonjour"))]⟩]⟩ 0 0 ("fr")).1.map
          (fun r => (r.name, some r.value)) := by
  have h := spec_C5_thm [⟨("ok"), ("Hello")⟩]
    ⟨[("fr")], [⟨("Hello"), [(("fr"), some ("Bonjour"))]⟩]⟩ ("fr")
    (by decide) (by decide)
  exact h.2
